import Mathlib

/-!
Verification of the forecast-reconciliation dashboard.

Shallow embedding of the repository's logic:
* the chart trace builder `buildTraces` and its helpers
  (`src/_internal/src/components/inventory/ForecastDashboard.tsx`),
* the row-derivation helpers `deriveTabGroup`, `parseFlags`, `parseGridCsv`,
* the facet builder `tabGroups` and the filter `filteredData`,
* the quoted-CSV line parser `parseCsvLine`
  (`src/_internal/src/app/dashboard/page.tsx`),
* the DuckDB reconciliation query joining vp, vovi and intraday_pba,
* the `loadData` outcome handling for the two concurrent fetches.

Modelling conventions, stated once:
* JavaScript numbers that hold integral volume/rank data are modelled as
  `Int`; nullable values as `Option`.
* JavaScript `Map` objects are modelled as association lists in insertion
  order, mirroring `Map.set` semantics (update in place, append when new).
* `String.prototype.toLowerCase` is modelled on the ASCII range, which the
  compared literals ("false", "true") lie in.
* Purely visual constants of a chart trace (colors, widths, fill colors,
  hover settings) are omitted from the `Trace` structure; every field the
  program branches on is kept.
-/
/-- The double-quote character (code point 34). -/
def dq : Char := Char.ofNat 34

-- ── parseCsvLine (src/_internal/src/app/dashboard/page.tsx) ───────────
/-- Inner loop of `parseCsvLine` for a quoted field: consumes characters
after the opening quote, turning a doubled quote into a literal quote,
and stops after the closing quote. Returns the field value and the
remaining characters after the closing quote. -/
def parseQuotedField : List Char → List Char → List Char × List Char
  | [], acc => (acc, [])
  | c :: rest, acc =>
    if c = dq then
      match rest with
      | c2 :: rest2 =>
        if c2 = dq then parseQuotedField rest2 (acc ++ [dq])
        else (acc, rest)
      | [] => (acc, [])
    else
      parseQuotedField rest (acc ++ [c])

theorem parseQuotedField_rest_length : ∀ (cs acc : List Char),
    (parseQuotedField cs acc).2.length ≤ cs.length
  | [], acc => by simp [parseQuotedField]
  | c :: rest, acc => by
    by_cases h : c = dq
    · match rest with
      | c2 :: rest2 =>
        by_cases h2 : c2 = dq
        · have ih := parseQuotedField_rest_length rest2 (acc ++ [dq])
          simp only [parseQuotedField, h, if_true, h2]
          simp only [List.length_cons]
          omega
        · simp [parseQuotedField, h, h2]
      | [] => simp [parseQuotedField, h]
    · have ih := parseQuotedField_rest_length rest (acc ++ [c])
      rw [parseQuotedField.eq_def]
      simp only [h, if_false]
      simp only [List.length_cons]
      omega

/-- `parseCsvLine` body over the character list of the line: a field is
either quoted (then `parseQuotedField` reads it and one following
character — the comma — is skipped) or unquoted (read up to the next
comma, or to the end of the line). -/
def parseCsvLineAux (cs : List Char) : List String :=
  match cs with
  | [] => []
  | c :: rest =>
    if c = dq then
      let q := parseQuotedField rest []
      String.mk q.1 :: parseCsvLineAux (q.2.drop 1)
    else
      match hsplit : (c :: rest).dropWhile (fun x => x ≠ ',') with
      | [] => [String.mk ((c :: rest).takeWhile (fun x => x ≠ ','))]
      | _ :: afterRest =>
        String.mk ((c :: rest).takeWhile (fun x => x ≠ ',')) :: parseCsvLineAux afterRest
termination_by cs.length
decreasing_by
  · have h1 := parseQuotedField_rest_length rest []
    have h2 : ((parseQuotedField rest []).2.drop 1).length ≤ (parseQuotedField rest []).2.length := by
      simp
    simp only [List.length_cons]
    omega
  · have h3 : ((c :: rest).dropWhile (fun x => x ≠ ',')).length ≤ (c :: rest).length :=
      (List.dropWhile_sublist _).length_le
    rw [hsplit] at h3
    simp only [List.length_cons] at h3 ⊢
    omega

/-- Handle quoted CSV fields (strips surrounding quotes, handles escaped
quotes); translation of `parseCsvLine` from
`src/_internal/src/app/dashboard/page.tsx`. -/
def parseCsvLine (line : String) : List String :=
  parseCsvLineAux line.data

/-- Modelled from the spec: the upstream CSV writer is not part of the
repository sources. The spec describes the format as "delimited text with
quoted-field escaping (a literal embedded quote is represented by doubling
it)". `csvEscape` doubles every quote character of a field value. -/
def csvEscape : List Char → List Char
  | [] => []
  | c :: cs => if c = dq then dq :: dq :: csvEscape cs else c :: csvEscape cs

/-- Modelled from the spec: serialize one value as a quoted CSV field —
surrounding quotes, every embedded quote doubled. -/
def csvQuoteField (s : String) : String :=
  String.mk (dq :: (csvEscape s.data ++ [dq]))

-- ── Row model and helpers (ForecastDashboard.tsx) ─────────────────────
/-- The joined-cell row (`JoinedRow` of `components/inventory/types`),
restricted to the fields the dashboard logic reads. The many passthrough
display columns (forecast values, quantile ratios, day-classifier fields)
are never branched on and are omitted; the two float fields
`auto_forecast_util`/`util` are likewise display-only. -/
structure JoinedRow where
  station : Option String := none
  cpts_local : Option String := none
  available_inputs : Option String := none
  automated_confidence : Option String := none
  confidence_anomaly : Option String := none
  setup_automated_confidence : Option String := none
  setup_confidence_anomaly : Option String := none
  confidence_changed : Option String := none
  automated_uncapped_slam_forecast : Option String := none
  atrops_soft_cap : Option String := none
  grid_key_local : Option String := none
  flags : Option String := none
  tab_group : String := ""
  /-- models the derived `_flags` array -/
  flagsParsed : List String := []
deriving DecidableEq

/-- `deriveTabGroup`: availability tier and confidence bucket concatenation. -/
def deriveTabGroup (row : JoinedRow) : String :=
  (row.available_inputs.getD "unknown") ++ "_" ++ (row.automated_confidence.getD "none")

/-- `parseFlags`: split the comma-delimited flags field, keep truthy
(non-empty) tokens. A null or empty field is falsy and yields `[]`. -/
def parseFlags (row : JoinedRow) : List String :=
  match row.flags with
  | none => []
  | some s => if s = "" then [] else (s.splitOn ",").filter (fun t => t ≠ "")

/-- Build a `JoinedRow` from a header-keyed field lookup, mirroring the
dynamic `obj[h.trim()] = v === "" ? null : v` object construction. -/
def rowOfFields (get : String → Option String) : JoinedRow :=
  { station := get "station"
    cpts_local := get "cpts_local"
    available_inputs := get "available_inputs"
    automated_confidence := get "automated_confidence"
    confidence_anomaly := get "confidence_anomaly"
    setup_automated_confidence := get "setup_automated_confidence"
    setup_confidence_anomaly := get "setup_confidence_anomaly"
    confidence_changed := get "confidence_changed"
    automated_uncapped_slam_forecast := get "automated_uncapped_slam_forecast"
    atrops_soft_cap := get "atrops_soft_cap"
    grid_key_local := get "grid_key_local"
    flags := get "flags" }

/-- `parseGridCsv`: naive comma-split CSV (no quote handling), first line
is the header; empty cells become null; then `tab_group` and `_flags` are
derived. A later duplicate header overwrites an earlier one, hence the
reversed lookup. -/
def parseGridCsv (text : String) : List JoinedRow :=
  match text.trim.splitOn "\n" with
  | [] => []
  | header :: rest =>
    if rest.isEmpty then []
    else
      let headers := header.splitOn ","
      rest.map (fun line =>
        let values := line.splitOn ","
        let fieldAssoc := headers.enum.map (fun p =>
          (p.2.trim, if values.getD p.1 "" = "" then none else some (values.getD p.1 "")))
        let base := rowOfFields
          (fun k => (fieldAssoc.reverse.find? (fun q => q.1 == k)).bind (fun q => q.2))
        { base with tab_group := deriveTabGroup base, flagsParsed := parseFlags base })

-- ── Confidence-anomaly classification ─────────────────────────────────
/-- ASCII lower-casing of one character; the compared literals are ASCII. -/
def asciiLowerChar (c : Char) : Char :=
  if 65 ≤ c.toNat && c.toNat ≤ 90 then Char.ofNat (c.toNat + 32) else c

/-- Model of `String.prototype.toLowerCase` on the ASCII range. -/
def asciiLower (s : String) : String := String.mk (s.data.map asciiLowerChar)

/-- JavaScript `String(x)` for a nullable string: null prints as "null". -/
def jsStringOfOpt : Option String → String
  | some s => s
  | none => "null"

/-- Per-row confidence-anomaly check of `tabGroups` (null-guarded form):
the row is NOT anomalous exactly when the lower-cased value is "false". -/
def rowNoAnomaly (v : Option String) : Bool :=
  (v.map asciiLower) == some "false"

/-- Per-row confidence-anomaly check of `filteredData`
(`String(r.confidence_anomaly).toLowerCase()` form). -/
def rowNoAnomalyFiltered (v : Option String) : Bool :=
  asciiLower (jsStringOfOpt v) == "false"

-- ── Facet builder `tabGroups` and filter `filteredData` ───────────────
def noAnomalyCount (rows : List JoinedRow) : Nat :=
  rows.countP (fun r => rowNoAnomaly r.confidence_anomaly)

def anomalyFlaggedCount (rows : List JoinedRow) : Nat :=
  rows.countP (fun r => !(rowNoAnomaly r.confidence_anomaly))

/-- `parseFloat(String(x))` with the `isNaN` guards: null is not numeric;
the numeric-string fields are modelled as integer-valued. -/
def jsParseNum : Option String → Option Int
  | none => none
  | some s => s.toInt?

def underCapPred (r : JoinedRow) : Bool :=
  match jsParseNum r.automated_uncapped_slam_forecast, jsParseNum r.atrops_soft_cap with
  | some a, some cap => cap > 0 && a < cap
  | _, _ => false

def underCapCount (rows : List JoinedRow) : Nat := rows.countP underCapPred

/-- Run-level setup-data flag: set when some row has a non-null
`setup_confidence_anomaly`. -/
def hasSetupData (rows : List JoinedRow) : Bool :=
  rows.any (fun r => r.setup_confidence_anomaly.isSome)

def setupAnomalyPred (r : JoinedRow) : Bool :=
  match r.setup_confidence_anomaly with
  | some s => asciiLower s != "false"
  | none => false

def setupAnomalyCount (rows : List JoinedRow) : Nat := rows.countP setupAnomalyPred

def confChangedPred (r : JoinedRow) : Bool := r.confidence_changed == some "true"

def confChangedCount (rows : List JoinedRow) : Nat := rows.countP confChangedPred

/-- JS `Map` counter bump: `m.set(k, (m.get(k) ?? 0) + 1)`. -/
def jsCountBump (m : List (String × Nat)) (k : String) : List (String × Nat) :=
  if m.any (fun p => p.1 == k) then m.map (fun p => if p.1 == k then (p.1, p.2 + 1) else p)
  else m ++ [(k, 1)]

def flagCounts (rows : List JoinedRow) : List (String × Nat) :=
  rows.foldl (fun m r => r.flagsParsed.foldl jsCountBump m) []

structure Tab where
  label : String
  value : String
  count : Nat
deriving DecidableEq

/-- The flag-tab comparator `([a], [b]) => a.localeCompare(b)`, modelled
as code-point order (the flag tokens are ASCII). -/
@[reducible] def flagLabelLe (a b : String × Nat) : Prop := a.1 ≤ b.1

instance : DecidableRel flagLabelLe := fun a b => inferInstanceAs (Decidable (a.1 ≤ b.1))

/-- The facet list of `tabGroups` (ForecastDashboard.tsx): All, one tab per
flag token (sorted by label; `localeCompare` modelled as code-point
order), the under-cap tab, the two confidence-anomaly tabs, and the two
setup-derived tabs guarded by the run-level setup flag. -/
def tabGroups (rows : List JoinedRow) : List Tab :=
  [⟨"All", "all", rows.length⟩]
  ++ ((flagCounts rows).insertionSort flagLabelLe).map
      (fun p => ⟨p.1, "flag:" ++ p.1, p.2⟩)
  ++ (if underCapCount rows > 0 then [⟨"Auto < Cap", "under_cap", underCapCount rows⟩] else [])
  ++ (if anomalyFlaggedCount rows > 0 then
      [⟨"Anomaly", "anomaly:flagged", anomalyFlaggedCount rows⟩] else [])
  ++ (if noAnomalyCount rows > 0 then
      [⟨"No Anomaly", "anomaly:false", noAnomalyCount rows⟩] else [])
  ++ (if hasSetupData rows && setupAnomalyCount rows > 0 then
      [⟨"Setup Anomaly", "setup_anomaly", setupAnomalyCount rows⟩] else [])
  ++ (if hasSetupData rows && confChangedCount rows > 0 then
      [⟨"Conf Changed", "conf_changed", confChangedCount rows⟩] else [])

/-- The active-tab filter `filteredData` (ForecastDashboard.tsx). -/
def filteredData (rows : List JoinedRow) (activeTab : String) : List JoinedRow :=
  if activeTab == "all" then rows
  else if activeTab.startsWith "flag:" then
    rows.filter (fun r => r.flagsParsed.contains (activeTab.drop 5))
  else if activeTab == "anomaly:flagged" then
    rows.filter (fun r => !(rowNoAnomalyFiltered r.confidence_anomaly))
  else if activeTab == "anomaly:false" then
    rows.filter (fun r => rowNoAnomalyFiltered r.confidence_anomaly)
  else if activeTab == "under_cap" then rows.filter underCapPred
  else if activeTab == "setup_anomaly" then rows.filter setupAnomalyPred
  else if activeTab == "conf_changed" then rows.filter confChangedPred
  else rows.filter (fun r => r.tab_group == activeTab)

-- ── Chart trace builder `buildTraces` (ForecastDashboard.tsx) ─────────
/-- The telemetry snapshot row (`PbaRow` of `components/inventory/types`),
with JavaScript numbers of integral data modelled as `Int` and the
nullable fan-chart fields as `Option Int`. `pba_bi_hourly_local`,
`pba_ofd_date` and `pba_cap_utilization` are never read by the trace
builder and are omitted. -/
structure PbaRow where
  grid_key : String
  pba_type : String
  pba_dhm_horizon : String
  pba_horizon_rank : Int
  pba_scheduled : Int := 0
  pba_slammed : Int := 0
  pba_soft_cap : Int := 0
  pba_hard_cap : Int := 0
  pba_cumulative_median : Option Int := none
  pba_cumulative_median_adj : Option Int := none
  pba_p10 : Option Int := none
  pba_p30 : Option Int := none
  pba_p50 : Option Int := none
  pba_p70 : Option Int := none
  pba_p90 : Option Int := none
deriving DecidableEq

/-- One Plotly trace, keeping every field the program branches on or that
identifies the trace; purely visual constants (colors, dash, widths,
fillcolor, hoverinfo, marker shape) are omitted. -/
structure Trace where
  x : List String
  y : List (Option Int)
  name : String
  legendgroup : String
  showlegend : Bool
  mode : String
  /-- `visible: "legendonly"` when true, `visible: true` when false -/
  visibleLegendonly : Bool := false
  /-- `fill: "tonexty"` on band upper bounds -/
  fill : Option String := none
deriving DecidableEq

structure TraceConfig where
  field : String
  name : String
  dash : Option String := none
  hidden : Bool := false
  isCap : Bool := false

def TRACE_CONFIGS : List TraceConfig :=
  [ { field := "pba_scheduled", name := "sch" },
    { field := "pba_slammed", name := "slm", hidden := true },
    { field := "pba_soft_cap", name := "cap", dash := some "4px,3px", isCap := true },
    { field := "pba_hard_cap", name := "cap", isCap := true } ]

/-- Dynamic field access `r[cfg.field]` for the fields of TRACE_CONFIGS. -/
def pbaField (r : PbaRow) (f : String) : Int :=
  if f == "pba_scheduled" then r.pba_scheduled
  else if f == "pba_slammed" then r.pba_slammed
  else if f == "pba_soft_cap" then r.pba_soft_cap
  else r.pba_hard_cap

def isVpType (t : String) : Bool :=
  t == "vp_automated" || t == "vp_weekly" || t == "vp_vovi"

/-- JS `Map.get` over the insertion-ordered association list. -/
def jsMapGet (m : List (String × Int)) (k : String) : Option Int :=
  (m.find? (fun p => p.1 == k)).map (fun p => p.2)

/-- JS `Map.set` for an existing key: update in place, keep position. -/
def jsMapSet (m : List (String × Int)) (k : String) (v : Int) : List (String × Int) :=
  m.map (fun p => if p.1 == k then (k, v) else p)

/-- One step of the `horizonMap` accumulation: skip the vp_* marker rows;
keep the minimum `pba_horizon_rank` seen for each `pba_dhm_horizon`. -/
def horizonStep (m : List (String × Int)) (r : PbaRow) : List (String × Int) :=
  if isVpType r.pba_type then m
  else
    match jsMapGet m r.pba_dhm_horizon with
    | none => m ++ [(r.pba_dhm_horizon, r.pba_horizon_rank)]
    | some v =>
      if r.pba_horizon_rank < v then jsMapSet m r.pba_dhm_horizon r.pba_horizon_rank else m

def horizonMap (filtered : List PbaRow) : List (String × Int) :=
  filtered.foldl horizonStep []

/-- The comparator `(a, b) => a[1] - b[1]` of a stable `Array.sort`,
as the total preorder it sorts by. JS `Array.prototype.sort` is stable;
`List.insertionSort` is the stable sort used to model it. -/
@[reducible] def rankLe (a b : String × Int) : Prop := a.2 ≤ b.2

instance : DecidableRel rankLe := fun a b => inferInstanceAs (Decidable (a.2 ≤ b.2))

def categoryOrderOf (filtered : List PbaRow) : List String :=
  ((horizonMap filtered).insertionSort rankLe).map (fun p => p.1)

/-- The comparator `(a, b) => a.pba_horizon_rank - b.pba_horizon_rank`. -/
@[reducible] def rowRankLe (a b : PbaRow) : Prop := a.pba_horizon_rank ≤ b.pba_horizon_rank

instance : DecidableRel rowRankLe := fun a b => inferInstanceAs (Decidable (a.pba_horizon_rank ≤ b.pba_horizon_rank))

/-- One baseline/capacity trace for a group, from one TRACE_CONFIGS entry. -/
def baseTrace (pbaType : String) (x : List String) (rows : List PbaRow)
    (cfg : TraceConfig) : Trace :=
  let isHardCap := cfg.field == "pba_hard_cap"
  let isSoftCap := cfg.field == "pba_soft_cap"
  let pfx := if pbaType == "match" then "match-" else ""
  { x := x
    y := rows.map (fun r => some (pbaField r cfg.field))
    name := if isHardCap then pfx ++ cfg.name ++ " (hard)" else pfx ++ cfg.name
    legendgroup := if isSoftCap || isHardCap then pfx ++ "cap" else pfx ++ cfg.name
    showlegend := !isHardCap
    mode := "lines"
    visibleLegendonly := cfg.hidden }

/-- The fan-chart traces for the target group: outer band (p10 bound, then
p90 bound filled down to it), inner band (p30 then p70), cumulative-median
line and hidden cumulative-median-adjusted line, in emission order. -/
def fanTraces (x : List String) (rows : List PbaRow) : List Trace :=
  [ { x := x, y := rows.map (fun r => some ((r.pba_p10).getD r.pba_scheduled)),
      name := "p10-p90", legendgroup := "fan-outer", showlegend := false, mode := "lines" },
    { x := x, y := rows.map (fun r => some ((r.pba_p90).getD r.pba_scheduled)),
      name := "p10-p90", legendgroup := "fan-outer", showlegend := true, mode := "lines",
      fill := some "tonexty" },
    { x := x, y := rows.map (fun r => some ((r.pba_p30).getD r.pba_scheduled)),
      name := "p30-p70", legendgroup := "fan-inner", showlegend := false, mode := "lines" },
    { x := x, y := rows.map (fun r => some ((r.pba_p70).getD r.pba_scheduled)),
      name := "p30-p70", legendgroup := "fan-inner", showlegend := true, mode := "lines",
      fill := some "tonexty" },
    { x := x, y := rows.map (fun r => r.pba_cumulative_median),
      name := "median", legendgroup := "median", showlegend := true, mode := "lines" },
    { x := x, y := rows.map (fun r => r.pba_cumulative_median_adj),
      name := "median adj", legendgroup := "median-adj", showlegend := true, mode := "lines",
      visibleLegendonly := true } ]

/-- Whether some row of the sorted target group carries both p10 and p90
(`rows.some((r) => r.pba_p10 != null && r.pba_p90 != null)`). -/
def hasFanPoint (rows : List PbaRow) : Bool :=
  rows.any (fun r => r.pba_p10.isSome && r.pba_p90.isSome)

/-- The traces of one classified group (the body of the
`for (const pbaType of ["target", "match"])` loop). -/
def groupTraces (filtered : List PbaRow) (pbaType : String) : List Trace :=
  let rows := (filtered.filter (fun r => r.pba_type == pbaType)).insertionSort rowRankLe
  if rows.isEmpty then []
  else
    let x := rows.map (fun r => r.pba_dhm_horizon)
    (TRACE_CONFIGS.map (baseTrace pbaType x rows))
      ++ (if pbaType == "target" && hasFanPoint rows then fanTraces x rows else [])

structure MarkerConfig where
  mtype : String
  name : String
  hidden : Bool

def MARKER_CONFIGS : List MarkerConfig :=
  [ ⟨"vp_automated", "auto fcst", false⟩,
    ⟨"vp_weekly", "weekly fcst", true⟩,
    ⟨"vp_vovi", "vovi fcst", false⟩ ]

/-- The single-point VP forecast reference markers. -/
def markerTraces (filtered : List PbaRow) : List Trace :=
  MARKER_CONFIGS.filterMap (fun mc =>
    (filtered.find? (fun r => r.pba_type == mc.mtype)).map (fun row =>
      { x := [row.pba_dhm_horizon], y := [some row.pba_scheduled],
        name := mc.name, legendgroup := mc.name, showlegend := true,
        mode := "markers", visibleLegendonly := mc.hidden }))

structure BuildResult where
  traces : List Trace
  categoryOrder : List String
deriving DecidableEq

/-- `buildTraces`: filter to the selected grid key, build the rank-ordered
category domain, emit the target group, the match group, then the
reference markers. -/
def buildTraces (pbaData : List PbaRow) (gridKey : String) : BuildResult :=
  let filtered := pbaData.filter (fun r => r.grid_key == gridKey)
  { traces := groupTraces filtered "target" ++ groupTraces filtered "match"
      ++ markerTraces filtered
    categoryOrder := categoryOrderOf filtered }

-- ── `loadData` outcome handling (ForecastDashboard.tsx) ───────────────
/-- Outcome of one settled fetch: `success` is "fulfilled with resp.ok";
`unavailable` is rejected or fulfilled with a non-success status. -/
inductive FetchOutcome (α : Type) where
  | success (payload : α)
  | unavailable
deriving DecidableEq

/-- Grid payload: a JSON array of rows, or CSV text by content type. -/
inductive GridPayload where
  | jsonRows (rows : List JoinedRow)
  | csvText (text : String)

/-- Processing of a successful grid fetch: JSON rows get `tab_group` and
`_flags` derived; CSV text goes through `parseGridCsv`. -/
def processGridPayload : GridPayload → List JoinedRow
  | .jsonRows rows =>
    rows.map (fun r => { r with tab_group := deriveTabGroup r, flagsParsed := parseFlags r })
  | .csvText text => parseGridCsv text

/-- The `Promise.allSettled` handling of `loadData`: each of the two
sources degrades to the empty dataset when its fetch is unavailable,
independently of the other; the function is total — no combination of
outcomes aborts the run. -/
def loadDataResult (grid : FetchOutcome GridPayload)
    (pba : FetchOutcome (List PbaRow)) : List JoinedRow × List PbaRow :=
  ( match grid with
    | .success p => processGridPayload p
    | .unavailable => []
  , match pba with
    | .success rows => rows
    | .unavailable => [] )

-- ── Reconciliation query (the DuckDB PBA join SQL) ────────────────────
/-- A row of the pivoted `vp` table; only the join keys and the selected
payload columns. -/
structure VpRow where
  node : String
  cpts_utc : String
  latest_deployed_cap : Option String := none
  cap_target_buffer : Option String := none
  automated_confidence : Option String := none
  post_cutoff_adjustment : Option String := none
  automated_uncapped_slam_forecast : Option String := none
  auto_forecast_util : Option String := none
  util : Option String := none
deriving DecidableEq

/-- A row of the `vovi` table. `station_cpt` is an epoch-seconds
timestamp; `cpt_date` and `match_key` are the two comparison dates, as
canonical date strings (the SQL `::DATE` casts are modelled as already
normalised). -/
structure VoviRow where
  station : String
  station_cpt : Int
  cpt_date : String
  match_key : String
  modified_user : Option String := none
  proposed_cap : Option String := none
  post_cutoff_adjustment : Option String := none
  adjusted_forecast : Option String := none
  forecast_source : Option String := none
  original_forecast : Option String := none
  forecast_status : Option String := none
  forecast_adjustment : Option String := none
deriving DecidableEq

/-- A row of the `intraday_pba` table. `cpt_utc` is an epoch-seconds UTC
timestamp; `ofd_date` a canonical date string. -/
structure IntradayRow where
  station : String
  cpt_utc : Int
  cpt_time_local : String
  ofd_date : String
  internal_sort_code : Option String := none
  ship_method : Option String := none
  horizon_rank : Int
  horizon_day : Int := 0
  horizon_hour : Int := 0
  horizon_minute : Int
  dhm_horizon : String := ""
  slammed : Int := 0
  scheduled : Int := 0
  soft_cap : Int := 0
  hard_cap : Int := 0
  cap_utilization : Int := 0
deriving DecidableEq

def pad2 (n : Nat) : String := if n < 10 then "0" ++ toString n else toString n

/-- `strftime(ts, '%H:%M')` on an epoch-seconds UTC timestamp
(`timezone('UTC', to_timestamp(x))` is the identity on the instant). -/
def hmOfEpoch (t : Int) : String :=
  let m := (((t / 60) % 1440 + 1440) % 1440).toNat
  pad2 (m / 60) ++ ":" ++ pad2 (m % 60)

/-- SQL `date = nullable_date`: a comparison against NULL is not true. -/
def sqlDateEq (a : String) (b : Option String) : Bool :=
  match b with
  | some d => a == d
  | none => false

/-- The `pba_type` CASE expression: 'target' when the observed-on date
equals the override row's forecast (cpt) date, else 'match' when it
equals the match_key date, else NULL. -/
def pbaTypeCase (ofd : String) (ov : Option VoviRow) : Option String :=
  if sqlDateEq ofd (ov.map (fun v => v.cpt_date)) then some "target"
  else if sqlDateEq ofd (ov.map (fun v => v.match_key)) then some "match"
  else none

/-- `vp LEFT JOIN vovi ON P.node = V.station AND P.cpts_utc =
strftime(...V.station_cpt...)`: every vp row paired with each matching
vovi row, or with NULL when none matches. -/
def vpLeftJoinVovi (vps : List VpRow) (vovis : List VoviRow) :
    List (VpRow × Option VoviRow) :=
  vps.flatMap (fun p =>
    let hits := vovis.filter (fun v =>
      p.node == v.station && p.cpts_utc == hmOfEpoch v.station_cpt)
    if hits.isEmpty then [(p, none)] else hits.map (fun v => (p, some v)))

/-- The selected output columns of the query (ORDER BY omitted: the
claims about the result are row-wise). -/
structure PbaJoinRow where
  pba_type : Option String
  grid_key_utc : String
  grid_key_local : String
  pba_ofd_date : String
  pba_cpt_time_local : String
  pba_cpt_utc : String
  node : String
  pba_internal_sort_code : Option String
  pba_ship_method : Option String
  pba_horizon_rank : Int
  pba_horizon_day : Int
  pba_horizon_hour : Int
  pba_horizon_minute : Int
  pba_dhm_horizon : String
  pba_slammed : Int
  pba_scheduled : Int
  pba_soft_cap : Int
  pba_hard_cap : Int
  pba_cap_utilization : Int
  vp_latest_deployed_cap : Option String
  vp_cap_target_buffer : Option String
  vp_automated_confidence : Option String
  vp_post_cutoff_adjustment : Option String
  vp_automated_uncapped_slam_forecast : Option String
  vp_auto_forecast_util : Option String
  vp_util : Option String
  vovi_modified_user : Option String
  vovi_proposed_cap : Option String
  vovi_post_cutoff_adjustment : Option String
  vovi_adjusted_forecast : Option String
  vovi_forecast_source : Option String
  vovi_original_forecast : Option String
  vovi_forecast_status : Option String
  vovi_forecast_adjustment : Option String
deriving DecidableEq

/-- The SELECT list applied to one joined (P, V, I) combination. -/
def mkPbaJoinRow (p : VpRow) (ov : Option VoviRow) (i : IntradayRow) : PbaJoinRow :=
  { pba_type := pbaTypeCase i.ofd_date ov
    grid_key_utc := i.ofd_date ++ "#" ++ i.station ++ "#" ++ hmOfEpoch i.cpt_utc
    grid_key_local := i.ofd_date ++ "#" ++ i.station ++ "#" ++ i.cpt_time_local
    pba_ofd_date := i.ofd_date
    pba_cpt_time_local := i.cpt_time_local
    pba_cpt_utc := hmOfEpoch i.cpt_utc
    node := i.station
    pba_internal_sort_code := i.internal_sort_code
    pba_ship_method := i.ship_method
    pba_horizon_rank := i.horizon_rank
    pba_horizon_day := i.horizon_day
    pba_horizon_hour := i.horizon_hour
    pba_horizon_minute := i.horizon_minute
    pba_dhm_horizon := i.dhm_horizon
    pba_slammed := i.slammed
    pba_scheduled := i.scheduled
    pba_soft_cap := i.soft_cap
    pba_hard_cap := i.hard_cap
    pba_cap_utilization := i.cap_utilization
    vp_latest_deployed_cap := p.latest_deployed_cap
    vp_cap_target_buffer := p.cap_target_buffer
    vp_automated_confidence := p.automated_confidence
    vp_post_cutoff_adjustment := p.post_cutoff_adjustment
    vp_automated_uncapped_slam_forecast := p.automated_uncapped_slam_forecast
    vp_auto_forecast_util := p.auto_forecast_util
    vp_util := p.util
    vovi_modified_user := ov.bind (fun v => v.modified_user)
    vovi_proposed_cap := ov.bind (fun v => v.proposed_cap)
    vovi_post_cutoff_adjustment := ov.bind (fun v => v.post_cutoff_adjustment)
    vovi_adjusted_forecast := ov.bind (fun v => v.adjusted_forecast)
    vovi_forecast_source := ov.bind (fun v => v.forecast_source)
    vovi_original_forecast := ov.bind (fun v => v.original_forecast)
    vovi_forecast_status := ov.bind (fun v => v.forecast_status)
    vovi_forecast_adjustment := ov.bind (fun v => v.forecast_adjustment) }

/-- The inner-join condition against `intraday_pba` plus the WHERE clause:
station match (`COALESCE(P.node, V.station)` is `P.node` — the vp side of
this left join is never NULL), cutoff-time match, the observed-on date
matching either comparison date, and `I.horizon_minute = 0`. -/
def intradayJoinCond (p : VpRow) (ov : Option VoviRow) (i : IntradayRow) : Bool :=
  p.node == i.station
    && p.cpts_utc == hmOfEpoch i.cpt_utc
    && (sqlDateEq i.ofd_date (ov.map (fun v => v.cpt_date))
        || sqlDateEq i.ofd_date (ov.map (fun v => v.match_key)))
    && i.horizon_minute == 0

/-- The full query: left join vp with vovi, inner join with intraday_pba,
apply the WHERE filter, project the SELECT list. -/
def intradayPbaQuery (vps : List VpRow) (vovis : List VoviRow)
    (ipba : List IntradayRow) : List PbaJoinRow :=
  (vpLeftJoinVovi vps vovis).flatMap (fun pv =>
    (ipba.filter (intradayJoinCond pv.1 pv.2)).map (mkPbaJoinRow pv.1 pv.2))

def c5input : String := String.mk ['a', ',', dq, 'b']

def c9row : JoinedRow := { flags := some ",alpha,,beta," }

def sampleVp : VpRow := { node := "STA1", cpts_utc := "08:00" }

def sampleVovi : VoviRow :=
  { station := "STA1", station_cpt := 28800,
    cpt_date := "2024-01-02", match_key := "2024-01-01" }

def sampleIntraday : IntradayRow :=
  { station := "STA1", cpt_utc := 28800, cpt_time_local := "03:00",
    ofd_date := "2024-01-02", horizon_rank := 0, horizon_minute := 0 }

def c7rowSetup : JoinedRow :=
  { setup_confidence_anomaly := some "true", confidence_changed := some "true" }

def c7rowPlain : JoinedRow := { confidence_changed := some "true" }

def c10row : PbaRow :=
  { grid_key := "2024-01-02#STA1#08:00", pba_type := "target",
    pba_dhm_horizon := "0d00h", pba_horizon_rank := 0 }

/-- Predicate picking out the percentile band traces (the two nested fan
bands' legend groups). -/
def fanGroupPred (t : Trace) : Bool :=
  t.legendgroup == "fan-outer" || t.legendgroup == "fan-inner"

def hasBandTraces (b : BuildResult) : Bool := b.traces.any fanGroupPred

def c2rowWithFan : PbaRow :=
  { grid_key := "G", pba_type := "target", pba_dhm_horizon := "0d00h",
    pba_horizon_rank := 0, pba_scheduled := 5,
    pba_p10 := some 1, pba_p30 := some 2, pba_p70 := some 8, pba_p90 := some 9 }

def c2rowNoFan : PbaRow :=
  { grid_key := "G", pba_type := "target", pba_dhm_horizon := "0d12h",
    pba_horizon_rank := 1, pba_scheduled := 6 }

-- ── C3: category-order machinery ──────────────────────────────────────
/-- A target/match telemetry row: the rows the horizonMap accumulation
keeps (everything that is not a vp_* marker row). -/
def isTMRow (r : PbaRow) : Bool := !(isVpType r.pba_type)

/-- The rank this row contributes for label `l`, if any. -/
def rankHit (l : String) (r : PbaRow) : Option Int :=
  if isTMRow r && r.pba_dhm_horizon == l then some r.pba_horizon_rank else none

/-- Combine two optional ranks, keeping the minimum. -/
def ominMerge : Option Int → Option Int → Option Int
  | none, b => b
  | some x, none => some x
  | some x, some y => some (min x y)

/-- Specification fold: the minimum rank over the rows carrying label `l`. -/
def minStep (l : String) (r : PbaRow) (acc : Option Int) : Option Int :=
  if isTMRow r && r.pba_dhm_horizon == l then
    some (match acc with
      | none => r.pba_horizon_rank
      | some v => min r.pba_horizon_rank v)
  else acc

/-- The minimum horizon rank at which label `l` appears among the
target/match rows of `rows` (`none` when it never appears). -/
def minRankAt (rows : List PbaRow) (l : String) : Option Int :=
  rows.foldr (minStep l) none

/-- `minRankAt` over the rows of the selected grid key. -/
def tmMinRank (pbaData : List PbaRow) (gridKey l : String) : Option Int :=
  minRankAt (pbaData.filter (fun r => r.grid_key == gridKey)) l

/-- The horizon labels of the target/match rows of the selected grid key. -/
def tmLabels (pbaData : List PbaRow) (gridKey : String) : List String :=
  ((pbaData.filter (fun r => r.grid_key == gridKey)).filter isTMRow).map
    (fun r => r.pba_dhm_horizon)

def c3tieA : PbaRow :=
  { grid_key := "G", pba_type := "target", pba_dhm_horizon := "aa", pba_horizon_rank := 1 }

def c3tieB : PbaRow :=
  { grid_key := "G", pba_type := "target", pba_dhm_horizon := "bb", pba_horizon_rank := 1 }

instance : IsTotal (String × Int) rankLe := ⟨fun a b => le_total a.2 b.2⟩

instance : IsTrans (String × Int) rankLe := ⟨fun _ _ _ hab hbc => le_trans hab hbc⟩

/-- Strict order on the rank component, used to show a sorted map with
pairwise-distinct ranks has a unique sorted enumeration. -/
@[reducible] def sndLt (a b : String × Int) : Prop := a.2 < b.2

instance : IsAntisymm (String × Int) sndLt :=
  ⟨fun _ _ h1 h2 => absurd (lt_trans h1 h2) (lt_irrefl _)⟩

def c3scnHigh : PbaRow :=
  { grid_key := "GK", pba_type := "target", pba_dhm_horizon := "2d12h", pba_horizon_rank := 5 }

def c3scnLow : PbaRow :=
  { grid_key := "GK", pba_type := "target", pba_dhm_horizon := "1d06h", pba_horizon_rank := 3 }

-- ── Theorems ─────────────────────────────────────────────────────────

theorem parseQuotedField_csvEscape (cs : List Char) (acc : List Char) :
    parseQuotedField (csvEscape cs ++ [dq]) acc = (acc ++ cs, []) := by
  induction cs generalizing acc with
  | nil => simp [csvEscape, parseQuotedField]
  | cons c cs ih =>
    by_cases hc : c = dq
    · subst hc
      have hstep : (csvEscape (dq :: cs)) ++ [dq] = dq :: dq :: (csvEscape cs ++ [dq]) := by
        simp [csvEscape]
      rw [hstep]
      simp only [parseQuotedField, if_pos rfl]
      rw [ih]
      simp
    · have hstep : (csvEscape (c :: cs)) ++ [dq] = c :: (csvEscape cs ++ [dq]) := by
        simp [csvEscape, hc]
      rw [hstep, parseQuotedField.eq_def]
      simp only [if_neg hc]
      rw [ih]
      simp

theorem parseCsvLine_csvQuoteField (s : String) :
    parseCsvLine (csvQuoteField s) = [s] := by
  show parseCsvLineAux (csvQuoteField s).data = [s]
  have hdata : (csvQuoteField s).data = dq :: (csvEscape s.data ++ [dq]) := rfl
  rw [hdata]
  simp only [parseCsvLineAux, if_pos rfl]
  rw [parseQuotedField_csvEscape]
  simp [parseCsvLineAux]

-- ── Claim theorems ────────────────────────────────────────────────────
/-- C5: Round-trip — for every field value containing an embedded comma
and a quote character (serialized as a doubled quote), serializing it as
a quoted CSV field (surrounding quotes, embedded quote doubled) and
parsing the resulting delimited row with the CSV line parser yields the
original field value unchanged. -/
theorem c5_quoted_csv_roundtrip (s : String)
    (hcomma : ',' ∈ s.data) (hquote : dq ∈ s.data) :
    parseCsvLine (csvQuoteField s) = [s] :=
  parseCsvLine_csvQuoteField s

theorem c5_quoted_csv_roundtrip_witness :
    (',' ∈ c5input.data ∧ dq ∈ c5input.data)
      ∧ parseCsvLine (csvQuoteField c5input) = [c5input] :=
  ⟨⟨by decide, by decide⟩,
    c5_quoted_csv_roundtrip c5input (by decide) (by decide)⟩

/-- C4: a cell is NOT anomalous exactly when its confidence_anomaly
value, lower-cased, is the literal "false"; the null-guarded tabGroups
check and the String()-coercing filteredData check agree; "FALSE" is not
anomalous while "False " (trailing space), "", null and "true" are. -/
theorem c4_confidence_anomaly (v : Option String) :
    (rowNoAnomaly v = true ↔ ∃ s, v = some s ∧ asciiLower s = "false")
    ∧ rowNoAnomalyFiltered v = rowNoAnomaly v
    ∧ rowNoAnomaly (some "FALSE") = true
    ∧ rowNoAnomaly (some "False ") = false
    ∧ rowNoAnomaly (some "") = false
    ∧ rowNoAnomaly none = false
    ∧ rowNoAnomaly (some "true") = false := by
  refine ⟨?_, ?_, by decide, by decide, by decide, by decide, by decide⟩
  · cases v with
    | none => simp [rowNoAnomaly]
    | some s => simp [rowNoAnomaly]
  · cases v with
    | none => decide
    | some s => simp [rowNoAnomaly, rowNoAnomalyFiltered, jsStringOfOpt]

/-- C9: the derived flag list comes from splitting the comma-delimited
flags field and keeping only non-empty tokens: a null or empty field
yields the empty list, no derived token is the empty string, and every
token comes from the comma-split of the field. -/
theorem c9_parse_flags (r : JoinedRow) :
    (r.flags = none → parseFlags r = [])
    ∧ (r.flags = some "" → parseFlags r = [])
    ∧ (∀ t ∈ parseFlags r, t ≠ "")
    ∧ (∀ t ∈ parseFlags r, ∃ s, r.flags = some s ∧ t ∈ s.splitOn ",") := by
  refine ⟨fun h => ?_, fun h => ?_, fun t ht => ?_, fun t ht => ?_⟩
  · simp [parseFlags, h]
  · simp [parseFlags, h]
  · cases hf : r.flags with
    | none => simp [parseFlags, hf] at ht
    | some s =>
      simp only [parseFlags, hf] at ht
      by_cases hs : s = ""
      · simp [hs] at ht
      · simp only [if_neg hs, List.mem_filter, decide_eq_true_eq] at ht
        exact ht.2
  · cases hf : r.flags with
    | none => simp [parseFlags, hf] at ht
    | some s =>
      simp only [parseFlags, hf] at ht
      by_cases hs : s = ""
      · simp [hs] at ht
      · simp only [if_neg hs, List.mem_filter, decide_eq_true_eq] at ht
        exact ⟨s, rfl, ht.1⟩

theorem c9_parse_flags_witness :
    parseFlags ({ flags := none } : JoinedRow) = []
      ∧ ∀ t ∈ parseFlags c9row, t ≠ "" :=
  ⟨(c9_parse_flags { flags := none }).1 rfl,
    (c9_parse_flags c9row).2.2.1⟩

/-- C6: the two upstream fetches settle independently — a run where one
fetch is unavailable degrades exactly that source to the empty dataset
while the other is still processed, and the outcome handler is total
(defined for all four outcome combinations, so the run never aborts). -/
theorem c6_independent_source_degradation (g : GridPayload) (p : List PbaRow) :
    loadDataResult .unavailable (.success p) = ([], p)
    ∧ loadDataResult (.success g) .unavailable = (processGridPayload g, [])
    ∧ loadDataResult (.success g) (.success p) = (processGridPayload g, p)
    ∧ loadDataResult .unavailable .unavailable = ([], []) :=
  ⟨rfl, rfl, rfl, rfl⟩

/-- C8: every row of the reconciliation join comes from a telemetry
snapshot whose horizon minute-component is zero, and pre-restricting the
telemetry input to minute-zero snapshots leaves the join unchanged
(nonzero-minute snapshots are excluded). -/
theorem c8_minute_zero_join (vps : List VpRow) (vovis : List VoviRow)
    (ipba : List IntradayRow) :
    (∀ r ∈ intradayPbaQuery vps vovis ipba, r.pba_horizon_minute = 0)
    ∧ intradayPbaQuery vps vovis ipba
        = intradayPbaQuery vps vovis (ipba.filter (fun i => i.horizon_minute == 0)) := by
  constructor
  · intro r hr
    simp only [intradayPbaQuery, List.mem_flatMap, List.mem_map, List.mem_filter] at hr
    obtain ⟨pv, hpv, i, ⟨hip, hcond⟩, rfl⟩ := hr
    simp only [intradayJoinCond, Bool.and_eq_true, beq_iff_eq] at hcond
    exact hcond.2
  · simp only [intradayPbaQuery]
    congr 1
    funext pv
    rw [List.filter_filter]
    have hcongr : ∀ i ∈ ipba,
        intradayJoinCond pv.1 pv.2 i = (intradayJoinCond pv.1 pv.2 i && (i.horizon_minute == 0)) := by
      intro i _
      show ((pv.1.node == i.station && pv.1.cpts_utc == hmOfEpoch i.cpt_utc
          && (sqlDateEq i.ofd_date (pv.2.map (fun v => v.cpt_date))
              || sqlDateEq i.ofd_date (pv.2.map (fun v => v.match_key))))
          && (i.horizon_minute == 0)) = _
      cases hm : (i.horizon_minute == 0) <;> simp [intradayJoinCond, hm]
    rw [List.filter_congr hcongr]

theorem c8_minute_zero_join_witness :
    (mkPbaJoinRow sampleVp (some sampleVovi) sampleIntraday).pba_horizon_minute = 0 :=
  (c8_minute_zero_join [sampleVp] [sampleVovi] [sampleIntraday]).1 _ (by decide)

/-- C1: the CASE classification is 'target' exactly when the observed-on
date equals the forecast (cpt) date, 'match' exactly when it equals the
match_key date but not the forecast date (target precedence), NULL
(excluded) exactly when it matches neither — exactly one of the three —
and every row the join emits is classified target or match (a group
matching neither date never reaches a cell's series). -/
theorem c1_target_match_classification (vps : List VpRow) (vovis : List VoviRow)
    (ipba : List IntradayRow) :
    (∀ (ofd : String) (ov : Option VoviRow),
      (pbaTypeCase ofd ov = some "target" ↔
        sqlDateEq ofd (ov.map (fun v => v.cpt_date)) = true)
      ∧ (pbaTypeCase ofd ov = some "match" ↔
          (sqlDateEq ofd (ov.map (fun v => v.match_key)) = true
            ∧ sqlDateEq ofd (ov.map (fun v => v.cpt_date)) = false))
      ∧ (pbaTypeCase ofd ov = none ↔
          (sqlDateEq ofd (ov.map (fun v => v.cpt_date)) = false
            ∧ sqlDateEq ofd (ov.map (fun v => v.match_key)) = false)))
    ∧ (∀ r ∈ intradayPbaQuery vps vovis ipba,
        r.pba_type = some "target" ∨ r.pba_type = some "match") := by
  constructor
  · intro ofd ov
    cases h1 : sqlDateEq ofd (ov.map (fun v => v.cpt_date)) <;>
      cases h2 : sqlDateEq ofd (ov.map (fun v => v.match_key)) <;>
        simp [pbaTypeCase, h1, h2]
  · intro r hr
    simp only [intradayPbaQuery, List.mem_flatMap, List.mem_map, List.mem_filter] at hr
    obtain ⟨pv, hpv, i, ⟨hip, hcond⟩, rfl⟩ := hr
    simp only [intradayJoinCond, Bool.and_eq_true, Bool.or_eq_true] at hcond
    have hdates := hcond.1.2
    show pbaTypeCase i.ofd_date pv.2 = some "target" ∨ pbaTypeCase i.ofd_date pv.2 = some "match"
    cases hc : sqlDateEq i.ofd_date (pv.2.map (fun v => v.cpt_date)) with
    | true => left; simp [pbaTypeCase, hc]
    | false =>
      rcases hdates with h | h
      · rw [hc] at h; exact absurd h (by simp)
      · right; simp [pbaTypeCase, hc, h]

theorem c1_target_match_classification_witness :
    (mkPbaJoinRow sampleVp (some sampleVovi) sampleIntraday).pba_type = some "target"
      ∨ (mkPbaJoinRow sampleVp (some sampleVovi) sampleIntraday).pba_type = some "match" :=
  (c1_target_match_classification [sampleVp] [sampleVovi] [sampleIntraday]).2 _ (by decide)

theorem flag_beq_setup (f : String) : (("flag:" ++ f) == "setup_anomaly") = false := by
  rw [beq_eq_false_iff_ne]
  intro h
  have hd := congrArg String.data h
  simp [String.data_append] at hd

theorem flag_beq_conf (f : String) : (("flag:" ++ f) == "conf_changed") = false := by
  rw [beq_eq_false_iff_ne]
  intro h
  have hd := congrArg String.data h
  simp [String.data_append] at hd

theorem any_ite_singleton_false {c : Prop} [Decidable c] {x : Tab} {f : Tab → Bool}
    (h : f x = false) : (if c then [x] else []).any f = false := by
  split <;> simp [h]

theorem any_ite_singleton_true {c : Prop} [Decidable c] {x : Tab} {f : Tab → Bool}
    (h : f x = true) : (if c then [x] else []).any f = decide c := by
  split
  · rename_i hc; simp [h, hc]
  · rename_i hc; simp [hc]

theorem any_const_false {a : Type} (l : List a) : l.any (fun _ => false) = false := by
  induction l <;> simp [*]

theorem tabs_any_setup (rows : List JoinedRow) :
    (tabGroups rows).any (fun t => t.value == "setup_anomaly")
      = (hasSetupData rows && decide (0 < setupAnomalyCount rows)) := by
  simp only [tabGroups, List.any_append, List.any_cons, List.any_nil]
  simp [any_ite_singleton_false, any_ite_singleton_true, flag_beq_setup, any_const_false]
  intro x s n hmem heq hv
  rw [← heq] at hv
  have hb := flag_beq_setup s
  rw [beq_eq_false_iff_ne] at hb
  exact absurd hv hb

theorem tabs_any_conf (rows : List JoinedRow) :
    (tabGroups rows).any (fun t => t.value == "conf_changed")
      = (hasSetupData rows && decide (0 < confChangedCount rows)) := by
  simp only [tabGroups, List.any_append, List.any_cons, List.any_nil]
  simp [any_ite_singleton_false, any_ite_singleton_true, flag_beq_conf, any_const_false]
  intro x s n hmem heq hv
  rw [← heq] at hv
  have hb := flag_beq_conf s
  rw [beq_eq_false_iff_ne] at hb
  exact absurd hv hb

/-- C7: the setup-derived facets appear in the facet list exactly when the
run-level setup-data flag is set and their count is nonzero; in a run
where no cell carries setup data, neither setup-derived facet appears,
whatever the other fields hold. -/
theorem c7_setup_facets_gated (rows : List JoinedRow) :
    ((∃ t ∈ tabGroups rows, t.value = "setup_anomaly") ↔
      (hasSetupData rows = true ∧ 0 < setupAnomalyCount rows))
    ∧ ((∃ t ∈ tabGroups rows, t.value = "conf_changed") ↔
      (hasSetupData rows = true ∧ 0 < confChangedCount rows))
    ∧ (hasSetupData rows = false →
        ∀ t ∈ tabGroups rows, t.value ≠ "setup_anomaly" ∧ t.value ≠ "conf_changed") := by
  have h1 : (∃ t ∈ tabGroups rows, t.value = "setup_anomaly") ↔
      ((tabGroups rows).any (fun t => t.value == "setup_anomaly") = true) := by
    simp [List.any_eq_true]
  have h2 : (∃ t ∈ tabGroups rows, t.value = "conf_changed") ↔
      ((tabGroups rows).any (fun t => t.value == "conf_changed") = true) := by
    simp [List.any_eq_true]
  rw [h1, h2, tabs_any_setup, tabs_any_conf]
  refine ⟨by simp, by simp, fun hno t ht => ⟨fun hv => ?_, fun hv => ?_⟩⟩
  · have : (hasSetupData rows && decide (0 < setupAnomalyCount rows)) = true := by
      rw [← tabs_any_setup]
      exact List.any_eq_true.mpr ⟨t, ht, by simp [hv]⟩
    rw [hno] at this
    simp at this
  · have : (hasSetupData rows && decide (0 < confChangedCount rows)) = true := by
      rw [← tabs_any_conf]
      exact List.any_eq_true.mpr ⟨t, ht, by simp [hv]⟩
    rw [hno] at this
    simp at this

theorem c7_setup_facets_gated_witness :
    (∃ t ∈ tabGroups [c7rowSetup], t.value = "setup_anomaly")
      ∧ (∀ t ∈ tabGroups [c7rowPlain],
          t.value ≠ "setup_anomaly" ∧ t.value ≠ "conf_changed") :=
  ⟨(c7_setup_facets_gated [c7rowSetup]).1.mpr (by decide),
    (c7_setup_facets_gated [c7rowPlain]).2.2 (by decide)⟩

/-- C10: the trace builder draws only from rows whose grid_key equals the
selected key — restricting the input to those rows changes nothing — and
when no input row carries the selected key it returns no traces and an
empty category order. -/
theorem c10_grid_key_isolation (pbaData : List PbaRow) (gridKey : String) :
    buildTraces pbaData gridKey
        = buildTraces (pbaData.filter (fun r => r.grid_key == gridKey)) gridKey
    ∧ ((∀ r ∈ pbaData, r.grid_key ≠ gridKey) → buildTraces pbaData gridKey = ⟨[], []⟩) := by
  constructor
  · have hf : (pbaData.filter (fun r => r.grid_key == gridKey)).filter
        (fun r => r.grid_key == gridKey) = pbaData.filter (fun r => r.grid_key == gridKey) := by
      rw [List.filter_filter]
      apply List.filter_congr
      intro a _
      rw [Bool.and_self]
    simp only [buildTraces]
    rw [hf]
  · intro hnone
    have hnil : pbaData.filter (fun r => r.grid_key == gridKey) = [] := by
      rw [List.filter_eq_nil_iff]
      intro a ha
      simpa using hnone a ha
    simp only [buildTraces]
    rw [hnil]
    rfl

theorem c10_grid_key_isolation_witness :
    buildTraces [c10row] "2024-01-03#STA9#09:00" = ⟨[], []⟩ :=
  (c10_grid_key_isolation [c10row] "2024-01-03#STA9#09:00").2 (by decide)

theorem any_fan_groupTraces_match (filtered : List PbaRow) :
    (groupTraces filtered "match").any fanGroupPred = false := by
  by_cases h : ((filtered.filter (fun r => r.pba_type == "match")).insertionSort rowRankLe).isEmpty
  · simp [groupTraces, h]
  · simp [groupTraces, h, TRACE_CONFIGS, baseTrace, fanGroupPred]

theorem any_fan_markerTraces (filtered : List PbaRow) :
    (markerTraces filtered).any fanGroupPred = false := by
  cases h1 : filtered.find? (fun r => r.pba_type == "vp_automated") <;>
    cases h2 : filtered.find? (fun r => r.pba_type == "vp_weekly") <;>
      cases h3 : filtered.find? (fun r => r.pba_type == "vp_vovi") <;>
        simp [markerTraces, MARKER_CONFIGS, List.filterMap_cons, h1, h2, h3, fanGroupPred]

theorem any_fan_groupTraces_target (filtered : List PbaRow) :
    (groupTraces filtered "target").any fanGroupPred
      = hasFanPoint ((filtered.filter (fun r => r.pba_type == "target")).insertionSort rowRankLe) := by
  by_cases h : ((filtered.filter (fun r => r.pba_type == "target")).insertionSort rowRankLe).isEmpty
  · have h2 := h
    rw [List.isEmpty_iff] at h2
    simp [groupTraces, h, h2, hasFanPoint]
  · by_cases hfan :
      hasFanPoint ((filtered.filter (fun r => r.pba_type == "target")).insertionSort rowRankLe)
    · simp [groupTraces, h, hfan, TRACE_CONFIGS, baseTrace, fanTraces, fanGroupPred]
    · simp [groupTraces, h, hfan, TRACE_CONFIGS, baseTrace, fanGroupPred]

/-- C2 counterexample: a target group in which one point lacks p10/p90
entirely (partial percentile coverage) still gets the nested band traces
emitted — the builder requires only SOME point to carry both bounds, not
every point as the claim states. -/
theorem c2_fan_band_counterexample :
    (¬ ∀ r ∈ [c2rowWithFan, c2rowNoFan].filter
        (fun r => r.grid_key == "G" && r.pba_type == "target"),
        r.pba_p10.isSome = true ∧ r.pba_p90.isSome = true)
    ∧ hasBandTraces (buildTraces [c2rowWithFan, c2rowNoFan] "G") = true := by
  constructor
  · decide
  · decide

/-- C2 (amended): the nested percentile band traces are emitted for the
selected grid key if and only if AT LEAST ONE point of the target group
carries both a non-null p10 and a non-null p90 (points lacking a bound
fall back to the scheduled value inside the emitted band); with no such
point — in particular with an empty target group — no band trace is
emitted. -/
theorem c2_fan_band_amended (pbaData : List PbaRow) (gridKey : String) :
    hasBandTraces (buildTraces pbaData gridKey) = true ↔
      ∃ r ∈ pbaData, r.grid_key = gridKey ∧ r.pba_type = "target"
        ∧ r.pba_p10.isSome = true ∧ r.pba_p90.isSome = true := by
  simp only [hasBandTraces, buildTraces, List.any_append]
  rw [any_fan_groupTraces_target, any_fan_groupTraces_match, any_fan_markerTraces]
  simp only [Bool.or_false]
  rw [hasFanPoint]
  simp [List.any_eq_true, List.mem_filter, and_assoc]
  constructor
  · rintro ⟨x, hx, ht, hk, h10, h90⟩
    exact ⟨x, hx, hk, ht, h10, h90⟩
  · rintro ⟨x, hx, hk, ht, h10, h90⟩
    exact ⟨x, hx, ht, hk, h10, h90⟩

/-- C3 counterexample: with two distinct labels at the same minimum rank,
the category order follows first appearance in the input, so a
permutation of the input rows changes it — the claimed invariance under
arbitrary permutations fails on ties. -/
theorem c3_category_order_counterexample :
    List.Perm [c3tieA, c3tieB] [c3tieB, c3tieA]
    ∧ (buildTraces [c3tieA, c3tieB] "G").categoryOrder
        ≠ (buildTraces [c3tieB, c3tieA] "G").categoryOrder := by
  constructor
  · exact List.Perm.swap c3tieB c3tieA []
  · decide

theorem minStep_eq (l : String) (r : PbaRow) (acc : Option Int) :
    minStep l r acc = ominMerge (rankHit l r) acc := by
  by_cases h : (isTMRow r && r.pba_dhm_horizon == l) = true
  · cases acc <;> simp [minStep, rankHit, ominMerge, h]
  · cases acc <;> simp [minStep, rankHit, ominMerge, h]

theorem ominMerge_none_right (a : Option Int) : ominMerge a none = a := by
  cases a <;> rfl

theorem ominMerge_assoc (a b c : Option Int) :
    ominMerge (ominMerge a b) c = ominMerge a (ominMerge b c) := by
  cases a <;> cases b <;> cases c <;> simp [ominMerge, min_assoc]

theorem ominMerge_comm (a b : Option Int) : ominMerge a b = ominMerge b a := by
  cases a <;> cases b <;> simp [ominMerge, min_comm]

theorem minRankAt_cons (r : PbaRow) (rs : List PbaRow) (l : String) :
    minRankAt (r :: rs) l = ominMerge (rankHit l r) (minRankAt rs l) := by
  simp [minRankAt, List.foldr_cons, minStep_eq]

theorem jsMapGet_append (m : List (String × Int)) (k l : String) (v : Int) :
    jsMapGet (m ++ [(k, v)]) l
      = match jsMapGet m l with
        | some w => some w
        | none => if k == l then some v else none := by
  induction m with
  | nil => by_cases h : k == l <;> simp [jsMapGet, List.find?, h]
  | cons p ps ih =>
    cases h : (p.1 == l) with
    | true => simp [jsMapGet, List.find?, h]
    | false =>
      simp only [jsMapGet, List.cons_append, List.find?, h] at ih ⊢
      exact ih

theorem jsMapGet_set_other (m : List (String × Int)) (k l : String) (v : Int)
    (h : k ≠ l) : jsMapGet (jsMapSet m k v) l = jsMapGet m l := by
  induction m with
  | nil => rfl
  | cons p ps ih =>
    have hkl : (k == l) = false := by simpa using h
    cases hp : (p.1 == k) with
    | true =>
      have hpk : p.1 = k := by simpa using hp
      have hpl : (p.1 == l) = false := by
        simpa [hpk] using h
      simp only [jsMapSet, List.map_cons, hp, if_true, jsMapGet, List.find?, hkl, hpl]
      simpa only [jsMapSet, jsMapGet] using ih
    | false =>
      cases hpl : (p.1 == l) with
      | true => simp [jsMapSet, jsMapGet, List.find?, hp, hpl]
      | false =>
        simp only [jsMapSet, List.map_cons, hp, Bool.false_eq_true, if_false, jsMapGet,
          List.find?, hpl]
        simpa only [jsMapSet, jsMapGet] using ih

theorem jsMapGet_set_same (m : List (String × Int)) (k : String) (v w : Int)
    (h : jsMapGet m k = some w) : jsMapGet (jsMapSet m k v) k = some v := by
  induction m with
  | nil => simp [jsMapGet] at h
  | cons p ps ih =>
    cases hp : (p.1 == k) with
    | true => simp [jsMapSet, jsMapGet, List.find?, hp]
    | false =>
      simp only [jsMapGet, List.find?, hp] at h
      simp only [jsMapSet, List.map_cons, hp, Bool.false_eq_true, if_false, jsMapGet,
        List.find?]
      simpa only [jsMapSet, jsMapGet] using ih h

theorem jsMapGet_horizonStep (m : List (String × Int)) (r : PbaRow) (l : String) :
    jsMapGet (horizonStep m r) l = ominMerge (jsMapGet m l) (rankHit l r) := by
  by_cases hvp : isVpType r.pba_type
  · have hhit : rankHit l r = none := by simp [rankHit, isTMRow, hvp]
    rw [hhit, ominMerge_none_right]
    simp [horizonStep, hvp]
  · simp only [horizonStep]
    rw [if_neg hvp]
    cases hget : jsMapGet m r.pba_dhm_horizon with
    | none =>
      rw [jsMapGet_append]
      cases hl : (r.pba_dhm_horizon == l) with
      | true =>
        have hleq : r.pba_dhm_horizon = l := by simpa using hl
        have hhit : rankHit l r = some r.pba_horizon_rank := by
          simp [rankHit, isTMRow, hvp, hl]
        rw [hhit, ← hleq, hget]
        simp [ominMerge]
      | false =>
        have hhit : rankHit l r = none := by simp [rankHit, hl]
        rw [hhit, ominMerge_none_right]
        cases hml : jsMapGet m l <;> simp
    | some w =>
      cases hl : (r.pba_dhm_horizon == l) with
      | true =>
        have hleq : r.pba_dhm_horizon = l := by simpa using hl
        have hhit : rankHit l r = some r.pba_horizon_rank := by
          simp [rankHit, isTMRow, hvp, hl]
        rw [hhit]
        by_cases hlt : r.pba_horizon_rank < w
        · simp only [hlt, if_true]
          rw [← hleq, jsMapGet_set_same m r.pba_dhm_horizon _ w hget, hget]
          simp only [ominMerge]
          congr 1
          omega
        · simp only [hlt, if_false]
          rw [← hleq, hget]
          simp only [ominMerge]
          congr 1
          omega
      | false =>
        have hhit : rankHit l r = none := by simp [rankHit, hl]
        rw [hhit, ominMerge_none_right]
        by_cases hlt : r.pba_horizon_rank < w
        · simp only [hlt, if_true]
          exact jsMapGet_set_other m r.pba_dhm_horizon l _ (by simpa using hl)
        · simp [hlt]

theorem jsMapGet_foldl (rows : List PbaRow) (m : List (String × Int)) (l : String) :
    jsMapGet (List.foldl horizonStep m rows) l
      = ominMerge (jsMapGet m l) (minRankAt rows l) := by
  induction rows generalizing m with
  | nil => simp [minRankAt, ominMerge_none_right]
  | cons r rs ih =>
    rw [List.foldl_cons, ih, jsMapGet_horizonStep, ominMerge_assoc, minRankAt_cons]

theorem jsMapGet_horizonMap (rows : List PbaRow) (l : String) :
    jsMapGet (horizonMap rows) l = minRankAt rows l := by
  rw [horizonMap, jsMapGet_foldl]
  rfl

theorem keys_jsMapSet (m : List (String × Int)) (k : String) (v : Int) :
    (jsMapSet m k v).map (fun p => p.1) = m.map (fun p => p.1) := by
  induction m with
  | nil => rfl
  | cons p ps ih =>
    show (if (p.1 == k) = true then (k, v) else p).1 :: (jsMapSet ps k v).map (fun q => q.1)
        = p.1 :: ps.map (fun q => q.1)
    rw [ih]
    congr 1
    by_cases hp : (p.1 == k) = true
    · rw [if_pos hp]
      exact (show p.1 = k by simpa using hp).symm
    · rw [if_neg hp]

theorem jsMapGet_none_not_mem (m : List (String × Int)) (l : String)
    (h : jsMapGet m l = none) : l ∉ m.map (fun p => p.1) := by
  induction m with
  | nil => simp
  | cons p ps ih =>
    cases hp : (p.1 == l) with
    | true => simp [jsMapGet, List.find?, hp] at h
    | false =>
      simp only [jsMapGet, List.find?, hp] at h
      have hne : p.1 ≠ l := by simpa using hp
      simp only [List.map_cons, List.mem_cons]
      rintro (hl | hl)
      · exact hne hl.symm
      · exact ih h hl

theorem keys_nodup_horizonStep (m : List (String × Int)) (r : PbaRow)
    (hnd : (m.map (fun p => p.1)).Nodup) :
    ((horizonStep m r).map (fun p => p.1)).Nodup := by
  by_cases hvp : isVpType r.pba_type
  · simpa [horizonStep, hvp] using hnd
  · simp only [horizonStep]
    rw [if_neg hvp]
    cases hget : jsMapGet m r.pba_dhm_horizon with
    | none =>
      rw [List.map_append]
      apply List.Nodup.append hnd (by simp)
      intro a ha hb
      simp only [List.map_cons, List.map_nil, List.mem_singleton] at hb
      subst hb
      exact jsMapGet_none_not_mem m _ hget ha
    | some w =>
      by_cases hlt : r.pba_horizon_rank < w
      · simp only [hlt, if_true]
        rw [keys_jsMapSet]
        exact hnd
      · simpa [hlt] using hnd

theorem keys_nodup_foldl (rows : List PbaRow) (m : List (String × Int))
    (hnd : (m.map (fun p => p.1)).Nodup) :
    ((List.foldl horizonStep m rows).map (fun p => p.1)).Nodup := by
  induction rows generalizing m with
  | nil => simpa
  | cons r rs ih =>
    rw [List.foldl_cons]
    exact ih _ (keys_nodup_horizonStep m r hnd)

theorem keys_nodup_horizonMap (rows : List PbaRow) :
    ((horizonMap rows).map (fun p => p.1)).Nodup :=
  keys_nodup_foldl rows [] (by simp)

theorem mem_of_jsMapGet (m : List (String × Int)) (l : String) (v : Int)
    (h : jsMapGet m l = some v) : (l, v) ∈ m := by
  induction m with
  | nil => simp [jsMapGet] at h
  | cons p ps ih =>
    cases hp : (p.1 == l) with
    | true =>
      simp only [jsMapGet, List.find?, hp, Option.map_some] at h
      have h1 : p.1 = l := by simpa using hp
      have h2 : p.2 = v := by simpa using h
      exact List.mem_cons.mpr (Or.inl (Prod.ext_iff.mpr ⟨h1.symm, h2.symm⟩))
    | false =>
      simp only [jsMapGet, List.find?, hp] at h
      exact List.mem_cons_of_mem _ (ih h)

theorem jsMapGet_of_mem (m : List (String × Int)) (l : String) (v : Int)
    (hmem : (l, v) ∈ m) (hnd : (m.map (fun p => p.1)).Nodup) :
    jsMapGet m l = some v := by
  induction m with
  | nil => simp at hmem
  | cons p ps ih =>
    rw [List.map_cons, List.nodup_cons] at hnd
    rcases List.mem_cons.mp hmem with heq | htail
    · rw [← heq]
      simp [jsMapGet, List.find?]
    · cases hp : (p.1 == l) with
      | true =>
        have hpl : p.1 = l := by simpa using hp
        exfalso
        apply hnd.1
        rw [hpl]
        exact List.mem_map.mpr ⟨(l, v), htail, rfl⟩
      | false =>
        simp only [jsMapGet, List.find?, hp]
        exact ih htail hnd.2

theorem minRankAt_perm {rows1 rows2 : List PbaRow} (h : rows1.Perm rows2) (l : String) :
    minRankAt rows1 l = minRankAt rows2 l := by
  have hcomm : ∀ (a b : PbaRow) (acc : Option Int),
      minStep l a (minStep l b acc) = minStep l b (minStep l a acc) := by
    intro a b acc
    rw [minStep_eq, minStep_eq, minStep_eq, minStep_eq,
      ← ominMerge_assoc, ← ominMerge_assoc, ominMerge_comm (rankHit l a) (rankHit l b)]
  exact @List.Perm.foldr_eq _ _ (minStep l) _ _ ⟨hcomm⟩ h none

theorem minRankAt_isSome (rows : List PbaRow) (l : String) :
    (minRankAt rows l).isSome = true ↔
      ∃ r ∈ rows, isTMRow r = true ∧ r.pba_dhm_horizon = l := by
  induction rows with
  | nil => simp [minRankAt]
  | cons r rs ih =>
    rw [minRankAt_cons]
    constructor
    · intro h
      cases hhit : rankHit l r with
      | some v =>
        simp only [rankHit] at hhit
        by_cases hc : (isTMRow r && r.pba_dhm_horizon == l) = true
        · rw [Bool.and_eq_true] at hc
          exact ⟨r, List.mem_cons_self r rs, hc.1, by simpa using hc.2⟩
        · simp [hc] at hhit
      | none =>
        rw [hhit] at h
        simp only [ominMerge] at h
        obtain ⟨r2, hr2, h1, h2⟩ := ih.mp h
        exact ⟨r2, List.mem_cons_of_mem _ hr2, h1, h2⟩
    · rintro ⟨r2, hr2, htm, hlbl⟩
      rcases List.mem_cons.mp hr2 with heq | htail
      · subst heq
        have hhit : rankHit l r2 = some r2.pba_horizon_rank := by
          simp [rankHit, htm, hlbl]
        rw [hhit]
        cases minRankAt rs l <;> simp [ominMerge]
      · have h := ih.mpr ⟨r2, htail, htm, hlbl⟩
        cases hhit : rankHit l r with
        | none => simpa [ominMerge] using h
        | some v => cases hm : minRankAt rs l <;> simp [ominMerge]

theorem horizonMap_perm {rows1 rows2 : List PbaRow} (h : rows1.Perm rows2) :
    (horizonMap rows1).Perm (horizonMap rows2) := by
  have d1k := keys_nodup_horizonMap rows1
  have d2k := keys_nodup_horizonMap rows2
  rw [List.perm_ext_iff_of_nodup (d1k.of_map _) (d2k.of_map _)]
  intro x
  constructor
  · intro hx
    apply mem_of_jsMapGet
    rw [jsMapGet_horizonMap, ← minRankAt_perm h, ← jsMapGet_horizonMap]
    exact jsMapGet_of_mem _ x.1 x.2 hx d1k
  · intro hx
    apply mem_of_jsMapGet
    rw [jsMapGet_horizonMap, minRankAt_perm h, ← jsMapGet_horizonMap]
    exact jsMapGet_of_mem _ x.1 x.2 hx d2k

theorem mem_sorted_get (F : List PbaRow) (x : String × Int)
    (hx : x ∈ (horizonMap F).insertionSort rankLe) : minRankAt F x.1 = some x.2 := by
  rw [List.mem_insertionSort] at hx
  rw [← jsMapGet_horizonMap]
  exact jsMapGet_of_mem _ x.1 x.2 hx (keys_nodup_horizonMap F)

theorem categoryOrder_eq_of_perm (F1 F2 : List PbaRow) (hperm : F1.Perm F2)
    (hinj : ∀ l1 l2, (minRankAt F1 l1).isSome = true → (minRankAt F1 l2).isSome = true →
        minRankAt F1 l1 = minRankAt F1 l2 → l1 = l2) :
    categoryOrderOf F1 = categoryOrderOf F2 := by
  have hm : (horizonMap F1).Perm (horizonMap F2) := horizonMap_perm hperm
  have hsp : ((horizonMap F1).insertionSort rankLe).Perm
      ((horizonMap F2).insertionSort rankLe) :=
    ((List.perm_insertionSort rankLe _).trans hm).trans
      (List.perm_insertionSort rankLe _).symm
  have hget1 := mem_sorted_get F1
  have hget2 : ∀ x ∈ (horizonMap F2).insertionSort rankLe, minRankAt F1 x.1 = some x.2 := by
    intro x hx
    rw [minRankAt_perm hperm]
    exact mem_sorted_get F2 x hx
  have hstrict : ∀ (s : List (String × Int)), s.Nodup → List.Pairwise rankLe s →
      (∀ x ∈ s, minRankAt F1 x.1 = some x.2) → List.Pairwise sndLt s := by
    intro s hnd hs hget
    refine (hs.and hnd).imp_of_mem ?_
    intro a b ha hb hab
    rcases hab with ⟨hle, hne⟩
    rcases lt_or_eq_of_le (hle : a.2 ≤ b.2) with hlt | heq
    · exact hlt
    · exfalso
      apply hne
      have hga := hget a ha
      have hgb := hget b hb
      have hkey : a.1 = b.1 := by
        apply hinj a.1 b.1 (by rw [hga]; rfl) (by rw [hgb]; rfl)
        rw [hga, hgb, heq]
      exact Prod.ext_iff.mpr ⟨hkey, heq⟩
  have hnd1 : ((horizonMap F1).insertionSort rankLe).Nodup :=
    ((List.perm_insertionSort rankLe _).nodup_iff).mpr ((keys_nodup_horizonMap F1).of_map _)
  have hnd2 : ((horizonMap F2).insertionSort rankLe).Nodup :=
    ((List.perm_insertionSort rankLe _).nodup_iff).mpr ((keys_nodup_horizonMap F2).of_map _)
  have heq : (horizonMap F1).insertionSort rankLe = (horizonMap F2).insertionSort rankLe :=
    List.eq_of_perm_of_sorted hsp
      (hstrict _ hnd1 (List.sorted_insertionSort rankLe _) hget1)
      (hstrict _ hnd2 (List.sorted_insertionSort rankLe _) hget2)
  rw [categoryOrderOf, categoryOrderOf, heq]

theorem mem_categoryOrderOf (F : List PbaRow) (l : String) :
    l ∈ categoryOrderOf F ↔ ∃ r ∈ F, isTMRow r = true ∧ r.pba_dhm_horizon = l := by
  rw [← minRankAt_isSome, categoryOrderOf]
  simp only [List.mem_map]
  constructor
  · rintro ⟨p, hp, rfl⟩
    rw [mem_sorted_get F p hp]
    rfl
  · intro h
    cases hm : minRankAt F l with
    | none => rw [hm] at h; simp at h
    | some v =>
      refine ⟨(l, v), ?_, rfl⟩
      rw [List.mem_insertionSort]
      apply mem_of_jsMapGet
      rw [jsMapGet_horizonMap, hm]

theorem pairwise_categoryOrderOf (F : List PbaRow) :
    (categoryOrderOf F).Pairwise
      (fun l1 l2 => ∀ v1 v2, minRankAt F l1 = some v1 → minRankAt F l2 = some v2 → v1 ≤ v2) := by
  rw [categoryOrderOf, List.pairwise_map]
  have hs : List.Pairwise rankLe ((horizonMap F).insertionSort rankLe) :=
    List.sorted_insertionSort rankLe _
  refine hs.imp_of_mem ?_
  intro a b ha hb hle v1 v2 h1 h2
  rw [mem_sorted_get F a ha] at h1
  rw [mem_sorted_get F b hb] at h2
  cases h1
  cases h2
  exact hle

theorem nodup_categoryOrderOf (F : List PbaRow) : (categoryOrderOf F).Nodup := by
  rw [categoryOrderOf]
  exact (((List.perm_insertionSort rankLe _).map _).nodup_iff).mpr (keys_nodup_horizonMap F)

/-- C3 (amended): for every selected grid key, the category order lists
exactly the horizon labels of the key's target/match rows, without
duplicates, ordered by the minimum horizon rank at which each label
appears; and PROVIDED distinct labels have distinct minimum ranks, the
order is invariant under any permutation of the input telemetry rows
(with rank ties, the order follows first appearance in the input — see
the counterexample). In particular labels "2d12h" at rank 5 and "1d06h"
at rank 3 yield categoryOrder ["1d06h", "2d12h"], not lexical order. -/
theorem c3_category_order_amended (pbaData pbaData' : List PbaRow) (gridKey : String)
    (hperm : pbaData.Perm pbaData')
    (hinj : ∀ l1 ∈ tmLabels pbaData gridKey, ∀ l2 ∈ tmLabels pbaData gridKey,
        tmMinRank pbaData gridKey l1 = tmMinRank pbaData gridKey l2 → l1 = l2) :
    (buildTraces pbaData gridKey).categoryOrder = (buildTraces pbaData' gridKey).categoryOrder
    ∧ (∀ l, l ∈ (buildTraces pbaData gridKey).categoryOrder ↔
        ∃ r ∈ pbaData, r.grid_key = gridKey ∧ isTMRow r = true ∧ r.pba_dhm_horizon = l)
    ∧ (buildTraces pbaData gridKey).categoryOrder.Pairwise
        (fun l1 l2 => ∀ v1 v2, tmMinRank pbaData gridKey l1 = some v1 →
          tmMinRank pbaData gridKey l2 = some v2 → v1 ≤ v2)
    ∧ (buildTraces pbaData gridKey).categoryOrder.Nodup
    ∧ (buildTraces [c3scnHigh, c3scnLow] "GK").categoryOrder = ["1d06h", "2d12h"] := by
  have hshow : ∀ (d : List PbaRow), (buildTraces d gridKey).categoryOrder
      = categoryOrderOf (d.filter (fun r => r.grid_key == gridKey)) := fun _ => rfl
  refine ⟨?_, ?_, ?_, ?_, by decide⟩
  · rw [hshow, hshow]
    apply categoryOrder_eq_of_perm _ _ (hperm.filter _)
    intro l1 l2 h1 h2 heq
    have hmem : ∀ l, (minRankAt (pbaData.filter (fun r => r.grid_key == gridKey)) l).isSome
        = true → l ∈ tmLabels pbaData gridKey := by
      intro l hl
      rw [minRankAt_isSome] at hl
      obtain ⟨r, hr, htm, hlbl⟩ := hl
      rw [tmLabels]
      exact List.mem_map.mpr ⟨r, List.mem_filter.mpr ⟨hr, htm⟩, hlbl⟩
    exact hinj l1 (hmem l1 h1) l2 (hmem l2 h2) heq
  · intro l
    rw [hshow, mem_categoryOrderOf]
    constructor
    · rintro ⟨r, hr, htm, hlbl⟩
      rw [List.mem_filter] at hr
      exact ⟨r, hr.1, by simpa using hr.2, htm, hlbl⟩
    · rintro ⟨r, hr, hk, htm, hlbl⟩
      exact ⟨r, List.mem_filter.mpr ⟨hr, by simpa using hk⟩, htm, hlbl⟩
  · rw [hshow]
    exact pairwise_categoryOrderOf _
  · rw [hshow]
    exact nodup_categoryOrderOf _

theorem c3_category_order_amended_witness :
    (buildTraces [c3scnHigh, c3scnLow] "GK").categoryOrder
      = (buildTraces [c3scnLow, c3scnHigh] "GK").categoryOrder :=
  (c3_category_order_amended [c3scnHigh, c3scnLow] [c3scnLow, c3scnHigh] "GK"
    (List.Perm.swap c3scnLow c3scnHigh []) (by decide)).1
